import Mathlib

/-!
Shallow embedding of `src/server/services/news_fetcher.py` (class
`HVACNewsFetcher`).

Python strings are Lean `String`s (lists of characters).  Python's
truthiness on strings is emptiness.  XML `findtext` results, which may be
`None`, are `Option String`.  External effects are explicit parameters:

* the network fetch per search term is `source : String → Except Unit (List XmlItem)`
  (`Except.error` models an exception raised while fetching/parsing a term);
* the current time (`datetime.utcnow()`) is an explicit `now : PyDateTime`;
* HTML entity decoding (`html.unescape`, a stdlib collaborator whose full
  html5 entity table is out of scope) is an explicit `unesc : String → String`.

Everything else is translated directly from the source, including the
relevant parts of CPython's `email._parseaddr._parsedate_tz` (the function
`email.utils.parsedate_to_datetime` delegates to, used at line 165 of the
source) and `datetime`'s field validation and `isoformat` rendering.
-/

/-- Python `s.lower()` restricted to ASCII letters, which covers every
keyword, tag and month/day/zone name the source compares against. -/
def pyLower (s : String) : String :=
  ⟨s.data.map (fun c => if 65 ≤ c.toNat ∧ c.toNat ≤ 90 then Char.ofNat (c.toNat + 32) else c)⟩

/-- Python `s.upper()` restricted to ASCII letters. -/
def pyUpper (s : String) : String :=
  ⟨s.data.map (fun c => if 97 ≤ c.toNat ∧ c.toNat ≤ 122 then Char.ofNat (c.toNat - 32) else c)⟩

/-- List-level core of Python `s.strip()`: drop whitespace from both ends. -/
def stripL (l : List Char) : List Char :=
  ((l.dropWhile Char.isWhitespace).reverse.dropWhile Char.isWhitespace).reverse

/-- Python `s.strip()`. -/
def pyStrip (s : String) : String :=
  ⟨stripL s.data⟩

/-- `listStartsWith n l`: `n` is an initial segment of `l`. -/
def listStartsWith : List Char → List Char → Bool
  | [], _ => true
  | _ :: _, [] => false
  | a :: ns, b :: ms => a = b && listStartsWith ns ms

/-- `containsSub n l`: `n` occurs contiguously inside `l`. -/
def containsSub (n : List Char) : List Char → Bool
  | [] => n.isEmpty
  | c :: cs => listStartsWith n (c :: cs) || containsSub n cs

/-- Python `needle in hay` (substring containment). -/
def pyContains (hay needle : String) : Bool :=
  containsSub needle.data hay.data

/-- Accumulating core of Python `s.split()` (no separator): words are
maximal whitespace-free runs, leading/trailing/repeated whitespace yields
no empty words. -/
def splitWsAux : List Char → List Char → List (List Char)
  | [], cur => if cur.isEmpty then [] else [cur.reverse]
  | c :: cs, cur =>
    if c.isWhitespace then
      if cur.isEmpty then splitWsAux cs [] else cur.reverse :: splitWsAux cs []
    else
      splitWsAux cs (c :: cur)

/-- Python `s.split()` with no separator. -/
def pySplitWs (s : String) : List String :=
  (splitWsAux s.data []).map String.mk

/-- Accumulating core of Python `s.split(sep)` for a nonempty separator:
cut at every non-overlapping occurrence of `sep`, scanning left to right
(empty pieces are kept, as Python does).  The recursion is driven by a
fuel counter so that the definition is structural (and so evaluates inside
the kernel); every step strictly shrinks the scanned list, so with fuel
above the list length the zero-fuel branch is unreachable. -/
def splitSepAux (sep : List Char) : Nat → List Char → List Char → List (List Char)
  | 0, l, cur => [(cur.reverse ++ l)]
  | _ + 1, [], cur => [cur.reverse]
  | fuel + 1, c :: cs, cur =>
    if (!sep.isEmpty) && listStartsWith sep (c :: cs) then
      cur.reverse :: splitSepAux sep fuel (cs.drop (sep.length - 1)) []
    else
      splitSepAux sep fuel cs (c :: cur)

/-- Python `s.split(sep)` for a nonempty separator. -/
def pySplitOn (s sep : String) : List String :=
  (splitSepAux sep.data (s.data.length + 1) s.data []).map String.mk

/-- Python `a or b` where `a` is an optional string: `None` and `""` are
falsy and select `b`. -/
def pyOr (a : Option String) (b : String) : String :=
  match a with
  | none => b
  | some s => if s = "" then b else s

/-- Core of Python `s.replace(old, new)`: replace non-overlapping
occurrences of `old`, scanning left to right (no-op when `old` is empty,
which the source never does).  Fuel-driven structural recursion; every
step strictly shrinks the list, so with fuel above the list length the
zero-fuel branch is unreachable. -/
def replaceChars (old new : List Char) : Nat → List Char → List Char
  | 0, l => l
  | _ + 1, [] => []
  | fuel + 1, c :: cs =>
    if (!old.isEmpty) && listStartsWith old (c :: cs) then
      new ++ replaceChars old new fuel (cs.drop (old.length - 1))
    else
      c :: replaceChars old new fuel cs

/-- Python `s.replace(old, new)`. -/
def pyReplace (s old new : String) : String :=
  ⟨replaceChars old.data new.data (s.data.length + 1) s.data⟩

/-- Scan for the `>` closing a tag body: chars before it may not be `<`
(the body class of the regex `<[^<]+?>` excludes only `<`). -/
def scanTagClose : List Char → Option (List Char)
  | [] => none
  | c :: cs => if c = '>' then some cs else if c = '<' then none else scanTagClose cs

/-- Attempt the regex `<[^<]+?>` just after an opening `<`: at least one
body character (not `<`), then the earliest closing `>`.  Returns the
remaining characters after the match. -/
def tagMatch : List Char → Option (List Char)
  | [] => none
  | c :: cs => if c = '<' then none else scanTagClose cs

/-- Core of `re.sub("<[^<]+?>", "", s)` (line 114 of the source): remove
every leftmost non-overlapping match of the tag regex.  Fuel-driven
structural recursion; a successful `tagMatch` consumes at least two
characters and the other steps consume one, so with fuel above the list
length the zero-fuel branch is unreachable. -/
def stripTagsL : Nat → List Char → List Char
  | 0, l => l
  | _ + 1, [] => []
  | fuel + 1, c :: cs =>
    if c = '<' then
      match tagMatch cs with
      | some rest => stripTagsL fuel rest
      | none => '<' :: stripTagsL fuel cs
    else
      c :: stripTagsL fuel cs

/-- `re.sub("<[^<]+?>", "", s)` on strings. -/
def stripTags (s : String) : String :=
  ⟨stripTagsL (s.data.length + 1) s.data⟩

/-! ## Industry classifier (`_determine_industry`, lines 192-234) -/

def bessKeywords : List String :=
  ["battery", "energy storage", "megapack", "grid scale", "bess", "lithium"]

def hvacKeywords : List String :=
  ["hvac", "heating", "ventilation", "air conditioning", "heat pump", "refriger"]

def financeKeywords : List String :=
  ["fintech", "banking", "cryptocurrency", "blockchain", "investment", "financial",
   "finance", "payment", "insurance", "venture capital", "funding"]

/-- `HVACNewsFetcher._determine_industry`. -/
def determineIndustry (title content : String) : String :=
  let text := pyLower (title ++ " " ++ content)
  let bessScore := bessKeywords.countP (fun k => pyContains text k)
  let hvacScore := hvacKeywords.countP (fun k => pyContains text k)
  let financeScore := financeKeywords.countP (fun k => pyContains text k)
  if financeScore > max bessScore hvacScore then "Finance"
  else if bessScore > hvacScore then "BESS"
  else "HVAC"

/-! ## Category classifier (`_determine_category`, lines 236-255) -/

/-- `HVACNewsFetcher._determine_category`. -/
def determineCategory (title content : String) : String :=
  let text := pyLower (title ++ " " ++ content)
  if ["launch", "new product", "introduce", "unveil"].any (fun w => pyContains text w) then
    "Product Launch"
  else if ["regulation", "compliance", "epa", "law", "standard"].any (fun w => pyContains text w) then
    "Regulatory Compliance"
  else if ["market", "growth", "forecast", "trend", "analysis"].any (fun w => pyContains text w) then
    "Market Trends"
  else if ["acquisition", "merger", "financial", "revenue", "profit"].any (fun w => pyContains text w) then
    "Competitor Financials"
  else if ["technology", "innovation", "breakthrough", "research"].any (fun w => pyContains text w) then
    "Technology Innovation"
  else
    "Industry Analysis"

/-! ## Summary generator (`_generate_summary`, lines 257-272) -/

/-- The word-accumulating loop of `_generate_summary`: stop before any word
that would push the buffer past 120 characters; otherwise append the word
and a space. -/
def summaryWords : List String → String → String
  | [], acc => acc
  | w :: ws, acc =>
    if (acc ++ w).length > 120 then acc
    else summaryWords ws (acc ++ w ++ " ")

/-- `HVACNewsFetcher._generate_summary`. -/
def generateSummary (content : String) : String :=
  if content.length ≤ 120 then content
  else
    match pySplitOn content ". " with
    | [] => pyStrip (summaryWords (pySplitWs content) "") ++ "..."
    | s0 :: _ =>
      if s0.length ≤ 120 then s0 ++ "."
      else pyStrip (summaryWords (pySplitWs content) "") ++ "..."

/-! ## Tag extractor (`_extract_tags`, lines 274-326) -/

def potentialTags : List String :=
  ["SmartHVAC", "AI", "EnergyEfficiency", "HeatPump", "BatteryStorage", "Tesla",
   "GridModernization", "RenewableEnergy", "EPA", "Regulations", "MarketGrowth",
   "Innovation", "Sustainability", "IoT", "Automation", "CommercialHVAC",
   "ResidentialHVAC", "Carrier", "Honeywell", "JohnsonControls", "Trane", "Rheem",
   "LGEnergy", "BYD", "EnergyStorage", "Fintech", "Blockchain", "Cryptocurrency",
   "DigitalPayments", "Banking", "Investment", "VentureCapital", "InsurTech",
   "RegTech", "WealthTech", "LendingTech", "CentralBank", "FinancialRegulation",
   "Trading", "RoboAdvisor"]

/-- `HVACNewsFetcher._extract_tags`.  The source computes
`tag.lower().replace("hvac", "hvac").split()`; the `replace` call maps
"hvac" to itself and is kept verbatim here. -/
def extractTags (title content : String) : List String :=
  let text := pyLower (title ++ " " ++ content)
  let found := potentialTags.filter
    (fun tag => (pySplitWs (pyReplace (pyLower tag) "hvac" "hvac")).all (fun w => pyContains text w))
  found.take 5

/-! ## Date parsing (`_format_article` lines 163-170 and 183)

The source calls `email.utils.parsedate_to_datetime`, which delegates to
CPython's `email._parseaddr._parsedate_tz`; any exception (unparseable
string, out-of-range `datetime` fields) is caught and replaced by
`datetime.utcnow()`.  The functions below are translated from CPython
(3.11) and return `none` exactly where CPython raises. -/

/-- Result of `_parsedate_tz` (year, month index, day, hour, minute,
second, timezone offset in seconds or `none`). -/
structure DateTuple where
  yy : Int
  mon : Nat
  dd : Int
  thh : Int
  tmm : Int
  tss : Int
  tzoff : Option Int
deriving DecidableEq, Repr

/-- A Python `datetime.datetime` value (always field-validated on
construction, see `mkDatetime`). -/
structure PyDateTime where
  year : Nat
  month : Nat
  day : Nat
  hour : Nat
  minute : Nat
  second : Nat
  microsecond : Nat
  tzoffset : Option Int
deriving DecidableEq, Repr

def daynames : List String := ["mon", "tue", "wed", "thu", "fri", "sat", "sun"]

def monthnames : List String :=
  ["jan", "feb", "mar", "apr", "may", "jun", "jul", "aug", "sep", "oct", "nov", "dec",
   "january", "february", "march", "april", "may", "june", "july", "august",
   "september", "october", "november", "december"]

def timezoneTable : List (String × Int) :=
  [("UT", 0), ("UTC", 0), ("GMT", 0), ("Z", 0), ("AST", -400), ("ADT", -300),
   ("EST", -500), ("EDT", -400), ("CST", -600), ("CDT", -500), ("MST", -700),
   ("MDT", -600), ("PST", -800), ("PDT", -700)]

/-- Digits of an ASCII-decimal token. -/
def digitsToNat (l : List Char) : Option Nat :=
  if l = [] then none
  else if l.all Char.isDigit then some (l.foldl (fun n c => n * 10 + (c.toNat - 48)) 0)
  else none

/-- Python `int(s)` on a whitespace-free token: optional sign, then ASCII
digits (CPython's underscore digit grouping never occurs in the dates this
file handles and is not modelled). -/
def pyInt (s : String) : Option Int :=
  match s.data with
  | '+' :: rest => (digitsToNat rest).map (fun n => (n : Int))
  | '-' :: rest => (digitsToNat rest).map (fun n => -(n : Int))
  | l => (digitsToNat l).map (fun n => (n : Int))

/-- Python `s[s.rfind(',')+1:]` when a comma exists, else `s` (identical to
`s` in that case, so applied unconditionally). -/
def afterLastComma (s : String) : String :=
  ⟨(s.data.reverse.takeWhile (fun c => c ≠ ',')).reverse⟩

/-- The `tm.split(':')` / `'.'`-separated handling of `_parsedate_tz`:
yields the hour/minute/second tokens. -/
def timeTokens (tm2 : String) : Option (String × String × String) :=
  match pySplitOn tm2 ":" with
  | [a, b] => some (a, b, "0")
  | [a, b, c] => some (a, b, c)
  | [a] =>
    if pyContains a "." then
      match pySplitOn a "." with
      | [x, y] => some (x, y, "0")
      | [x, y, z] => some (x, y, z)
      | _ => none
    else none
  | _ => none

/-- CPython `email._parseaddr._parsedate_tz` (the parsing core used by
`parsedate_to_datetime`).  `none` models returning `None` or raising. -/
def parsedateTz (s : String) : Option DateTuple :=
  if s = "" then none else
  match pySplitWs s with
  | [] => none
  | d0 :: drest =>
    let data1 : List String :=
      if d0.data.getLast? = some ',' ∨ pyLower d0 ∈ daynames then drest
      else afterLastComma d0 :: drest
    let data2 : List String :=
      if data1.length = 3 then
        match data1 with
        | e0 :: erest =>
          let stuff := pySplitOn e0 "-"
          if stuff.length = 3 then stuff ++ erest else data1
        | [] => data1
      else data1
    let data3 : List String :=
      if data2.length = 4 then
        let s3 := data2.getD 3 ""
        let i : Int :=
          match s3.data.findIdx? (fun c => c = '+') with
          | some k => (k : Int)
          | none =>
            match s3.data.findIdx? (fun c => c = '-') with
            | some k => (k : Int)
            | none => -1
        if 0 < i then data2.take 3 ++ [⟨s3.data.take i.toNat⟩, ⟨s3.data.drop i.toNat⟩]
        else data2 ++ [""]
      else data2
    if data3.length < 5 then none else
    let dd0 := data3.getD 0 ""
    let mm0 := data3.getD 1 ""
    let yy0 := data3.getD 2 ""
    let tm0 := data3.getD 3 ""
    let tz0 := data3.getD 4 ""
    if dd0 = "" ∨ mm0 = "" ∨ yy0 = "" then none else
    let mmL := pyLower mm0
    let dd1 := if mmL ∈ monthnames then dd0 else mmL
    let mmName := if mmL ∈ monthnames then mmL else pyLower dd0
    if mmName ∉ monthnames then none else
    let mon0 := monthnames.findIdx (fun x => x = mmName) + 1
    let mon := if 12 < mon0 then mon0 - 12 else mon0
    let dd2 : String := if dd1.data.getLast? = some ',' then ⟨dd1.data.dropLast⟩ else dd1
    let swapYT : Bool :=
      match yy0.data.findIdx? (fun c => c = ':') with
      | some k => decide (0 < k)
      | none => false
    let yy1 := if swapYT then tm0 else yy0
    let tm1 := if swapYT then yy0 else tm0
    let yy2opt : Option String :=
      if yy1.data.getLast? = some ',' then
        if (⟨yy1.data.dropLast⟩ : String) = "" then none else some ⟨yy1.data.dropLast⟩
      else some yy1
    match yy2opt with
    | none => none
    | some yy2 =>
      match yy2.data.head? with
      | none => none
      | some c0 =>
        let swapYZ : Bool := !c0.isDigit
        let yy3 := if swapYZ then tz0 else yy2
        let tz1 := if swapYZ then yy2 else tz0
        let tm2 : String := if tm1.data.getLast? = some ',' then ⟨tm1.data.dropLast⟩ else tm1
        match timeTokens tm2 with
        | none => none
        | some (thhS, tmmS, tssS) =>
          match pyInt yy3, pyInt dd2, pyInt thhS, pyInt tmmS, pyInt tssS with
          | some yyI, some ddI, some thhI, some tmmI, some tssI =>
            let yyA : Int := if yyI < 100 then (if 68 < yyI then yyI + 1900 else yyI + 2000) else yyI
            let tzU := pyUpper tz1
            let tzoffset0 : Option Int :=
              match timezoneTable.lookup tzU with
              | some v => some v
              | none =>
                match pyInt tzU with
                | some v => if v = 0 ∧ tzU.data.head? = some '-' then none else some v
                | none => none
            let tzoff : Option Int :=
              match tzoffset0 with
              | none => none
              | some v =>
                if v = 0 then some 0
                else
                  let a := v.natAbs
                  let secs : Int := ((a / 100) * 3600 + (a % 100) * 60 : Nat)
                  some (if v < 0 then -secs else secs)
            some ⟨yyA, mon, ddI, thhI, tmmI, tssI, tzoff⟩
          | _, _, _, _, _ => none

def isLeapYear (y : Nat) : Bool :=
  y % 4 = 0 && (y % 100 ≠ 0 || y % 400 = 0)

def daysInMonth (y m : Nat) : Nat :=
  if m = 2 then (if isLeapYear y then 29 else 28)
  else if m = 4 ∨ m = 6 ∨ m = 9 ∨ m = 11 then 30
  else 31

/-- `datetime.timezone(timedelta(seconds=off))` accepts only offsets
strictly between -24h and +24h. -/
def tzRangeOk : Option Int → Bool
  | none => true
  | some off => decide (-86400 < off ∧ off < 86400)

/-- The `datetime.datetime(...)` constructor applied to a parsed tuple:
validates every field (raising, i.e. `none`, otherwise). -/
def mkDatetime (t : DateTuple) : Option PyDateTime :=
  if 1 ≤ t.yy ∧ t.yy ≤ 9999 ∧ 1 ≤ t.mon ∧ t.mon ≤ 12 ∧
     1 ≤ t.dd ∧ t.dd ≤ (daysInMonth t.yy.toNat t.mon : Int) ∧
     0 ≤ t.thh ∧ t.thh ≤ 23 ∧ 0 ≤ t.tmm ∧ t.tmm ≤ 59 ∧ 0 ≤ t.tss ∧ t.tss ≤ 59 ∧
     tzRangeOk t.tzoff = true
  then some ⟨t.yy.toNat, t.mon, t.dd.toNat, t.thh.toNat, t.tmm.toNat, t.tss.toNat, 0, t.tzoff⟩
  else none

/-- `email.utils.parsedate_to_datetime`, with raising modelled as `none`. -/
def parsedateToDatetime (s : String) : Option PyDateTime :=
  (parsedateTz s).bind mkDatetime

/-- Lines 163-170: parse the published date, substituting the captured
current time on empty input or any parse failure. -/
def parsePublished (now : PyDateTime) (publishedDate : String) : PyDateTime :=
  if publishedDate = "" then now
  else
    match parsedateToDatetime publishedDate with
    | some d => d
    | none => now

/-! ### `datetime.isoformat()` rendering -/

def digitChar (n : Nat) : Char := Char.ofNat (48 + n % 10)

def twoDig (n : Nat) : List Char := [digitChar (n / 10), digitChar n]

def fourDig (n : Nat) : List Char :=
  [digitChar (n / 1000), digitChar (n / 100), digitChar (n / 10), digitChar n]

def sixDig (n : Nat) : List Char :=
  [digitChar (n / 100000), digitChar (n / 10000), digitChar (n / 1000),
   digitChar (n / 100), digitChar (n / 10), digitChar n]

/-- The UTC-offset suffix of `isoformat`: sign, hours, minutes, and a
seconds component only when the offset is not a whole number of minutes. -/
def tzChars (off : Int) : List Char :=
  let a := off.natAbs
  (if off < 0 then '-' else '+') ::
    (twoDig (a / 3600) ++ ':' :: twoDig (a % 3600 / 60) ++
      (if a % 60 = 0 then [] else ':' :: twoDig (a % 60)))

/-- `datetime.isoformat()`: digit-by-digit rendering, identical to
CPython's zero-padded formatting on every validated `datetime`. -/
def isoformat (d : PyDateTime) : String :=
  ⟨fourDig d.year ++ '-' :: twoDig d.month ++ '-' :: twoDig d.day ++
    'T' :: twoDig d.hour ++ ':' :: twoDig d.minute ++ ':' :: twoDig d.second ++
    (if d.microsecond = 0 then [] else '.' :: sixDig d.microsecond) ++
    (match d.tzoffset with
     | none => []
     | some off => tzChars off)⟩

/-! ### A checker for "valid parseable ISO-8601 timestamp string"

Modelled from the spec's words ("publishedAt is always a valid, parseable
timestamp (ISO-8601)"): the shape `YYYY-MM-DDTHH:MM:SS[.ffffff][±HH:MM[:SS]]`. -/

def munchDigits : Nat → List Char → Option (List Char)
  | 0, l => some l
  | _ + 1, [] => none
  | n + 1, c :: cs => if c.isDigit then munchDigits n cs else none

def munchChar (ch : Char) : List Char → Option (List Char)
  | [] => none
  | c :: cs => if c = ch then some cs else none

def isoSecondsTailOk : List Char → Bool
  | [] => true
  | l => decide (((munchChar ':' l).bind (munchDigits 2)) = some [])

def isoTzOk : List Char → Bool
  | [] => true
  | c :: cs =>
    decide (c = '+' ∨ c = '-') &&
      match (munchDigits 2 cs).bind (munchChar ':') with
      | none => false
      | some r2 =>
        match munchDigits 2 r2 with
        | none => false
        | some r3 => isoSecondsTailOk r3

def isoFracTzOk : List Char → Bool
  | '.' :: cs =>
    (match munchDigits 6 cs with
     | none => false
     | some r => isoTzOk r)
  | l => isoTzOk l

def isIso8601 (s : String) : Bool :=
  match (munchDigits 4 s.data).bind (munchChar '-') |>.bind (munchDigits 2)
      |>.bind (munchChar '-') |>.bind (munchDigits 2) |>.bind (munchChar 'T')
      |>.bind (munchDigits 2) |>.bind (munchChar ':') |>.bind (munchDigits 2)
      |>.bind (munchChar ':') |>.bind (munchDigits 2) with
  | none => false
  | some rest => isoFracTzOk rest

/-! ## Records (`fetch_articles` / `_format_article`, lines 70-190) -/

/-- One `<item>` of the RSS feed: each `findtext` result may be absent. -/
structure XmlItem where
  title : Option String
  description : Option String
  link : Option String
  source : Option String
  pubDate : Option String
deriving DecidableEq, Repr

/-- The dict built at lines 124-130 and consumed by `_format_article`
(`publisherTitle` is `article["publisher"]["title"]`). -/
structure SourceArticle where
  title : String
  description : String
  url : String
  publisherTitle : String
  publishedDate : String
deriving DecidableEq, Repr

/-- The formatted output record (lines 175-185). -/
structure Article where
  title : String
  content : String
  summary : String
  source : String
  category : String
  industry : String
  url : String
  publishedAt : String
  tags : List String
deriving DecidableEq, Repr

/-- `HVACNewsFetcher._format_article` (lines 150-190), with the industry
classifier abstracted so that its (un)reachability can be stated; the
faithful entry point is `formatArticle` below.  `now` is the time
`datetime.utcnow()` would capture. -/
def formatArticleWith (classify : String → String → String) (now : PyDateTime)
    (a : SourceArticle) (industryHint : Option String) : Option Article :=
  let title := pyStrip a.title
  let description := pyStrip a.description
  if title = "" ∨ description = "" then none
  else
    let parsedDate := parsePublished now a.publishedDate
    let industry :=
      match industryHint with
      | some h => if h = "" then classify title description else h
      | none => classify title description
    some { title := title
           content := description
           summary := generateSummary description
           source := a.publisherTitle
           category := determineCategory title description
           industry := industry
           url := a.url
           publishedAt := isoformat parsedDate
           tags := extractTags title description }

/-- `HVACNewsFetcher._format_article` with its actual classifier. -/
def formatArticle (now : PyDateTime) (a : SourceArticle) (industryHint : Option String) :
    Option Article :=
  formatArticleWith determineIndustry now a industryHint

/-! ## Orchestrator (`__init__` lines 38-65, `fetch_articles` lines 70-145) -/

/-- `self.search_terms` from `__init__` (a dict iterated in insertion
order). -/
def searchTerms : List (String × List String) :=
  [("HVAC",
    ["HVAC industry news", "heating ventilation air conditioning",
     "smart HVAC technology", "heat pump technology", "commercial HVAC equipment",
     "HVAC regulations EPA", "energy efficiency HVAC"]),
   ("BESS",
    ["battery energy storage systems BESS", "Tesla Megapack energy storage",
     "grid scale battery storage"]),
   ("Finance",
    ["financial technology fintech", "banking industry news",
     "cryptocurrency blockchain", "investment banking",
     "financial services regulation", "digital payments fintech",
     "insurance technology insurtech", "venture capital funding",
     "financial markets analysis", "central bank policy"])]

/-- The per-item loop of `fetch_articles` (lines 107-137): dedupe on the
trimmed title, normalize the description, format, append, and stop once
`max_per_industry` articles were collected for the group.  Returns the
updated `(collected, seen_titles, all_articles)`. -/
def processItems (unesc : String → String) (classify : String → String → String)
    (now : PyDateTime) (maxPI : Nat) (industry : String) :
    List XmlItem → Nat → List String → List Article → Nat × List String × List Article
  | [], collected, seen, acc => (collected, seen, acc)
  | item :: rest, collected, seen, acc =>
    let title := pyStrip (pyOr item.title "")
    if title = "" ∨ title ∈ seen then
      processItems unesc classify now maxPI industry rest collected seen acc
    else
      let seen1 := title :: seen
      let description := unesc (pyStrip (stripTags (pyOr item.description "")))
      let link := pyStrip (pyOr item.link "")
      let src := pyStrip (pyOr item.source "Unknown Source")
      let published := pyOr item.pubDate ""
      let sa : SourceArticle :=
        { title := title, description := description, url := link,
          publisherTitle := src, publishedDate := published }
      match formatArticleWith classify now sa (some industry) with
      | some art =>
        if maxPI ≤ collected + 1 then (collected + 1, seen1, acc ++ [art])
        else processItems unesc classify now maxPI industry rest (collected + 1) seen1 (acc ++ [art])
      | none =>
        if maxPI ≤ collected then (collected, seen1, acc)
        else processItems unesc classify now maxPI industry rest collected seen1 acc

/-- The per-term loop for one industry group (lines 96-143): stop when the
group cap is reached, skip a term whose fetch raised, and otherwise fold
the fetched items through `processItems`. -/
def processTerms (unesc : String → String) (classify : String → String → String)
    (source : String → Except Unit (List XmlItem)) (now : PyDateTime)
    (maxPI : Nat) (industry : String) :
    List String → Nat → List String → List Article → List String × List Article
  | [], _, seen, acc => (seen, acc)
  | term :: ts, collected, seen, acc =>
    if maxPI ≤ collected then (seen, acc)
    else
      match source term with
      | Except.error _ => processTerms unesc classify source now maxPI industry ts collected seen acc
      | Except.ok items =>
        let r := processItems unesc classify now maxPI industry items collected seen acc
        processTerms unesc classify source now maxPI industry ts r.1 r.2.1 r.2.2

/-- The outer loop over industry groups (line 94): the collected counter
restarts at 0 per group, seen titles and results are carried through. -/
def runGroups (unesc : String → String) (classify : String → String → String)
    (source : String → Except Unit (List XmlItem)) (now : PyDateTime) (maxPI : Nat) :
    List (String × List String) → List String → List Article → List Article
  | [], _, acc => acc
  | (industry, terms) :: gs, seen, acc =>
    let r := processTerms unesc classify source now maxPI industry terms 0 seen acc
    runGroups unesc classify source now maxPI gs r.1 r.2

/-- Lines 81-92: pre-seed the seen-title set from the persisted
`data/news.json` (its parsed array is the `history` parameter; a missing or
unreadable file yields `[]`). -/
def preseedTitles (history : List (Option String)) : List String :=
  (history.map (fun t => pyStrip (pyOr t ""))).filter (fun t => t ≠ "")

/-- `HVACNewsFetcher.fetch_articles` with the classifier abstracted. -/
def fetchArticlesWith (unesc : String → String) (classify : String → String → String)
    (source : String → Except Unit (List XmlItem)) (now : PyDateTime)
    (history : List (Option String)) (maxPI : Nat) : List Article :=
  runGroups unesc classify source now maxPI searchTerms (preseedTitles history) []

/-- `HVACNewsFetcher.fetch_articles` (default `max_per_industry` is 10). -/
def fetchArticles (unesc : String → String)
    (source : String → Except Unit (List XmlItem)) (now : PyDateTime)
    (history : List (Option String)) (maxPI : Nat) : List Article :=
  fetchArticlesWith unesc determineIndustry source now history maxPI

/-! ## Concrete scenarios used by the theorems below -/

/-- A fixed capture time for concrete runs. -/
def now0 : PyDateTime := ⟨2024, 1, 1, 0, 0, 0, 0, none⟩

/-- Data source for the end-to-end error-handling scenario: the first HVAC
term (A) fails, the second (B) returns two unique items, the third (C)
returns a duplicate of B plus one new item; every other term fails. -/
def srcScenarioC8 : String → Except Unit (List XmlItem) := fun t =>
  if t = "heating ventilation air conditioning" then
    Except.ok [⟨some "B1", some "first unique story", none, none, none⟩,
               ⟨some "B2", some "second unique story", none, none, none⟩]
  else if t = "smart HVAC technology" then
    Except.ok [⟨some "B1", some "duplicate of the first story", none, none, none⟩,
               ⟨some "C1", some "third unique story", none, none, none⟩]
  else Except.error ()

/-- `srcScenarioC8` with the failing term A replaced by an empty success. -/
def srcScenarioC8ok : String → Except Unit (List XmlItem) := fun t =>
  if t = "HVAC industry news" then Except.ok [] else srcScenarioC8 t

/-- Data source for the dedup counterexample: one term yields two
well-formed items with the identical trimmed title "T". -/
def srcScenarioC5 : String → Except Unit (List XmlItem) := fun t =>
  if t = "HVAC industry news" then
    Except.ok [⟨some "T", some "some body text", none, none, none⟩,
               ⟨some "T", some "other body text", none, none, none⟩]
  else Except.error ()

/-- Data source for the dropped-item scenario: an item without a title, an
item without a description, then a good item, all under one term. -/
def srcScenarioC9 : String → Except Unit (List XmlItem) := fun t =>
  if t = "HVAC industry news" then
    Except.ok [⟨none, some "has a body but no title", none, none, none⟩,
               ⟨some "NoBody", none, none, none, none⟩,
               ⟨some "G", some "good body", none, some "Src", none⟩]
  else Except.error ()

/-- A content string longer than 120 characters whose first ". "-candidate
is short: exercises the first-sentence branch of the summary generator. -/
def demoContentC3 : String :=
  "Lorem ipsum dolor sit amet. Consectetur adipiscing elit sed do eiusmod tempor incididunt ut labore et dolore magna aliqua indeed"

/-! # Helper lemmas -/

theorem string_ne_empty_of_length_pos (s : String) (h : 0 < s.length) : s ≠ "" := by
  intro he
  subst he
  exact absurd h (by decide)

theorem dropWhile_head_not (p : Char → Bool) (l : List Char) (c : Char)
    (h : (l.dropWhile p).head? = some c) : p c = false := by
  have hm := List.head?_dropWhile_not p l
  rw [h] at hm
  exact hm

theorem dropWhile_eq_self_of_head (p : Char → Bool) (l : List Char)
    (h : ∀ c, l.head? = some c → p c = false) : l.dropWhile p = l := by
  cases l with
  | nil => rfl
  | cons a as => simp [List.dropWhile_cons, h a rfl]

theorem dropWhile_suffix_ex (p : Char → Bool) (l : List Char) :
    ∃ u, u ++ l.dropWhile p = l :=
  List.dropWhile_suffix p

theorem dropWhile_length_le (p : Char → Bool) (l : List Char) :
    (l.dropWhile p).length ≤ l.length :=
  (List.dropWhile_suffix p).sublist.length_le

theorem getLast_append_right (u t : List Char) (c : Char) (h : t.getLast? = some c) :
    (u ++ t).getLast? = some c := by
  rw [List.getLast?_append, h]
  rfl

theorem stripL_head_not (l : List Char) (c : Char)
    (h : (stripL l).head? = some c) : c.isWhitespace = false := by
  unfold stripL at h
  rw [List.head?_reverse] at h
  obtain ⟨u, hu⟩ := dropWhile_suffix_ex Char.isWhitespace (l.dropWhile Char.isWhitespace).reverse
  have h2 : (l.dropWhile Char.isWhitespace).reverse.getLast? = some c := by
    rw [← hu]
    exact getLast_append_right _ _ _ h
  rw [List.getLast?_reverse] at h2
  exact dropWhile_head_not _ _ _ h2

theorem stripL_last_not (l : List Char) (c : Char)
    (h : (stripL l).getLast? = some c) : c.isWhitespace = false := by
  unfold stripL at h
  rw [List.getLast?_reverse] at h
  exact dropWhile_head_not _ _ _ h

theorem stripL_idem (l : List Char) : stripL (stripL l) = stripL l := by
  have h1 : (stripL l).dropWhile Char.isWhitespace = stripL l :=
    dropWhile_eq_self_of_head _ _ (fun c hc => stripL_head_not l c hc)
  show (((stripL l).dropWhile Char.isWhitespace).reverse.dropWhile Char.isWhitespace).reverse
      = stripL l
  rw [h1]
  have h2 : (stripL l).reverse.dropWhile Char.isWhitespace = (stripL l).reverse := by
    apply dropWhile_eq_self_of_head
    intro c hc
    rw [List.head?_reverse] at hc
    exact stripL_last_not l c hc
  rw [h2, List.reverse_reverse]

theorem pyStrip_idem (s : String) : pyStrip (pyStrip s) = pyStrip s :=
  congrArg String.mk (stripL_idem s.data)

theorem stripL_length_le (l : List Char) : (stripL l).length ≤ l.length := by
  unfold stripL
  rw [List.length_reverse]
  calc ((l.dropWhile Char.isWhitespace).reverse.dropWhile Char.isWhitespace).length
      ≤ (l.dropWhile Char.isWhitespace).reverse.length := dropWhile_length_le _ _
    _ = (l.dropWhile Char.isWhitespace).length := List.length_reverse _
    _ ≤ l.length := dropWhile_length_le _ _

theorem stripL_length_lt (l : List Char) (c : Char)
    (hl : l.getLast? = some c) (hc : c.isWhitespace = true) :
    (stripL l).length < l.length := by
  have hlpos : 0 < l.length := by
    cases l with
    | nil => simp at hl
    | cons a as => simp
  by_cases hm : l.dropWhile Char.isWhitespace = []
  · unfold stripL
    rw [hm]
    simpa using hlpos
  · obtain ⟨u, hu⟩ := dropWhile_suffix_ex Char.isWhitespace l
    have hml : (l.dropWhile Char.isWhitespace).getLast? = some c := by
      rcases hx : (l.dropWhile Char.isWhitespace).getLast? with _ | d
      · exact absurd (List.getLast?_eq_none_iff.mp hx) hm
      · have h3 := getLast_append_right u _ d hx
        rw [hu, hl] at h3
        injection h3 with h4
        rw [h4]
    have hrev : (l.dropWhile Char.isWhitespace).reverse.head? = some c := by
      rw [List.head?_reverse]
      exact hml
    rcases hsh : (l.dropWhile Char.isWhitespace).reverse with _ | ⟨a, rest⟩
    · rw [hsh] at hrev
      simp at hrev
    · rw [hsh] at hrev
      simp at hrev
      subst hrev
      have hlen1 : (stripL l).length ≤ rest.length := by
        unfold stripL
        rw [List.length_reverse, hsh, List.dropWhile_cons, if_pos hc]
        exact dropWhile_length_le _ _
      have hlen2 : (l.dropWhile Char.isWhitespace).length = rest.length + 1 := by
        rw [← List.length_reverse (l.dropWhile Char.isWhitespace), hsh]
        simp
      have hlen3 : (l.dropWhile Char.isWhitespace).length ≤ l.length := dropWhile_length_le _ _
      omega

theorem pyStrip_length_le (s : String) : (pyStrip s).length ≤ s.length :=
  stripL_length_le s.data

theorem pyStrip_length_lt (s : String) (c : Char)
    (hl : s.data.getLast? = some c) (hc : c.isWhitespace = true) :
    (pyStrip s).length < s.length :=
  stripL_length_lt s.data c hl hc

theorem summaryWords_spec (ws : List String) :
    ∀ acc : String, acc.length ≤ 121 → (acc = "" ∨ acc.data.getLast? = some ' ') →
      (summaryWords ws acc).length ≤ 121 ∧
      (summaryWords ws acc = "" ∨ (summaryWords ws acc).data.getLast? = some ' ') := by
  induction ws with
  | nil => intro acc h1 h2; exact ⟨h1, h2⟩
  | cons w tl ih =>
    intro acc h1 h2
    simp only [summaryWords]
    split
    · exact ⟨h1, h2⟩
    · rename_i hle
      apply ih
      · rw [String.length_append, String.length_append]
        rw [String.length_append] at hle
        have hone : (" " : String).length = 1 := rfl
        omega
      · right
        rw [String.data_append]
        have hsp : (" " : String).data = [' '] := rfl
        rw [hsp]
        exact List.getLast?_concat _

theorem generateSummary_length_le (content : String) :
    (generateSummary content).length ≤ 123 := by
  have key : (pyStrip (summaryWords (pySplitWs content) "") ++ "...").length ≤ 123 := by
    obtain ⟨hlen, hlast⟩ := summaryWords_spec (pySplitWs content) "" (by decide) (Or.inl rfl)
    rw [String.length_append]
    have hdots : ("..." : String).length = 3 := rfl
    rcases hlast with he | hl
    · rw [he]
      have hz : (pyStrip "").length = 0 := rfl
      omega
    · have := pyStrip_length_lt (summaryWords (pySplitWs content) "") ' ' hl (by decide)
      omega
  unfold generateSummary
  split
  · rename_i h; omega
  · split
    · exact key
    · split
      · rename_i hs0
        rw [String.length_append]
        have hdot : ("." : String).length = 1 := rfl
        omega
      · exact key

theorem generateSummary_ne_empty (content : String) (h : content ≠ "") :
    generateSummary content ≠ "" := by
  have key : pyStrip (summaryWords (pySplitWs content) "") ++ "..." ≠ "" := by
    apply string_ne_empty_of_length_pos
    rw [String.length_append]
    have hdots : ("..." : String).length = 3 := rfl
    omega
  unfold generateSummary
  split
  · exact h
  · split
    · exact key
    · split
      · apply string_ne_empty_of_length_pos
        rw [String.length_append]
        have hdot : ("." : String).length = 1 := rfl
        omega
      · exact key

/-! # Claim theorems -/

/-- C1: for every pair (title, content) the industry classifier computes
the three non-negative keyword scores (one point per keyword present as a
case-insensitive substring of the lowercased concatenation of title and
content) and returns "Finance" when the finance score beats the maximum of
the other two, else "BESS" when the BESS score beats the HVAC score, else
"HVAC" (all-zero input and bess = hvac ties included); the four sample
texts of the claim classify as stated. -/
theorem C1_industry_classifier :
    (∀ title content : String,
      determineIndustry title content =
        (let text := pyLower (title ++ " " ++ content)
         let bessScore := bessKeywords.countP (fun k => pyContains text k)
         let hvacScore := hvacKeywords.countP (fun k => pyContains text k)
         let financeScore := financeKeywords.countP (fun k => pyContains text k)
         if max bessScore hvacScore < financeScore then "Finance"
         else if hvacScore < bessScore then "BESS"
         else "HVAC")) ∧
    determineIndustry "battery energy storage" "" = "BESS" ∧
    determineIndustry "hvac heating" "" = "HVAC" ∧
    determineIndustry "fintech banking" "" = "Finance" ∧
    determineIndustry "nothing relevant at all" "" = "HVAC" := by
  refine ⟨fun title content => rfl, by decide, by decide, by decide, by decide⟩

/-- C2: for every pair (title, content) the category classifier scans the
five keyword groups in the fixed priority order over the lowercased
concatenation of title and content and returns the label of the first
group with any case-insensitive substring match, returning
"Industry Analysis" when no group matches: the first conjunct states the
exact first-match-wins chain over all six outcomes, then group-1
dominance, the no-match default, label totality, and concrete samples
showing group 1 beating group 3 (the claim's sample), group 2 beating
group 4, group 3 beating group 5, group 4 beating group 5, and a
keyword-free text defaulting to "Industry Analysis". -/
theorem C2_category_classifier :
    (∀ title content : String,
      determineCategory title content =
        (let text := pyLower (title ++ " " ++ content)
         if ["launch", "new product", "introduce", "unveil"].any
             (fun w => pyContains text w) then
           "Product Launch"
         else if ["regulation", "compliance", "epa", "law", "standard"].any
             (fun w => pyContains text w) then
           "Regulatory Compliance"
         else if ["market", "growth", "forecast", "trend", "analysis"].any
             (fun w => pyContains text w) then
           "Market Trends"
         else if ["acquisition", "merger", "financial", "revenue", "profit"].any
             (fun w => pyContains text w) then
           "Competitor Financials"
         else if ["technology", "innovation", "breakthrough", "research"].any
             (fun w => pyContains text w) then
           "Technology Innovation"
         else
           "Industry Analysis")) ∧
    (∀ title content : String,
      (["launch", "new product", "introduce", "unveil"].any
        (fun w => pyContains (pyLower (title ++ " " ++ content)) w)) = true →
      determineCategory title content = "Product Launch") ∧
    (∀ title content : String,
      (["launch", "new product", "introduce", "unveil"].any
        (fun w => pyContains (pyLower (title ++ " " ++ content)) w)) = false →
      (["regulation", "compliance", "epa", "law", "standard"].any
        (fun w => pyContains (pyLower (title ++ " " ++ content)) w)) = false →
      (["market", "growth", "forecast", "trend", "analysis"].any
        (fun w => pyContains (pyLower (title ++ " " ++ content)) w)) = false →
      (["acquisition", "merger", "financial", "revenue", "profit"].any
        (fun w => pyContains (pyLower (title ++ " " ++ content)) w)) = false →
      (["technology", "innovation", "breakthrough", "research"].any
        (fun w => pyContains (pyLower (title ++ " " ++ content)) w)) = false →
      determineCategory title content = "Industry Analysis") ∧
    (∀ title content : String,
      determineCategory title content ∈
        ["Product Launch", "Regulatory Compliance", "Market Trends",
         "Competitor Financials", "Technology Innovation", "Industry Analysis"]) ∧
    determineCategory "new product launch and also market growth" "" = "Product Launch" ∧
    determineCategory "merger with epa compliance" "" = "Regulatory Compliance" ∧
    determineCategory "market growth meets technology research" "" = "Market Trends" ∧
    determineCategory "revenue boost from innovation" "" = "Competitor Financials" ∧
    determineCategory "hello world" "" = "Industry Analysis" := by
  refine ⟨fun title content => rfl, ?_, ?_, ?_, by decide, by decide, by decide, by decide,
    by decide⟩
  · intro title content h
    simp only [determineCategory]
    rw [if_pos h]
  · intro title content h1 h2 h3 h4 h5
    simp only [determineCategory]
    rw [if_neg (by simp [h1]), if_neg (by simp [h2]), if_neg (by simp [h3]),
      if_neg (by simp [h4]), if_neg (by simp [h5])]
  · intro title content
    simp only [determineCategory]
    split
    · decide
    · split
      · decide
      · split
        · decide
        · split
          · decide
          · split
            · decide
            · decide

theorem C2_category_classifier_witness :
    determineCategory "big launch day" "" = "Product Launch" ∧
    determineCategory "plain greeting text" "" = "Industry Analysis" :=
  ⟨C2_category_classifier.2.1 "big launch day" "" (by decide),
   C2_category_classifier.2.2.1 "plain greeting text" "" (by decide) (by decide) (by decide)
     (by decide) (by decide)⟩

/-- C3: the summary generator returns short content unchanged; for long
content it returns the first ". "-candidate plus a period when that
candidate is at most 120 characters, and otherwise the greedy
word-accumulation buffer, trimmed, plus "..."; the result is never longer
than 123 characters and is non-empty for non-empty input (the generator is
a total structurally-recursive function, so it terminates on every
input). -/
theorem C3_summary_generator :
    (∀ content : String, content.length ≤ 120 → generateSummary content = content) ∧
    (∀ content s0 : String, ∀ rest : List String, 120 < content.length →
      pySplitOn content ". " = s0 :: rest →
      (s0.length ≤ 120 → generateSummary content = s0 ++ ".") ∧
      (120 < s0.length →
        generateSummary content = pyStrip (summaryWords (pySplitWs content) "") ++ "...")) ∧
    (∀ content : String, (generateSummary content).length ≤ 123) ∧
    (∀ content : String, content ≠ "" → generateSummary content ≠ "") := by
  refine ⟨?_, ?_, generateSummary_length_le, generateSummary_ne_empty⟩
  · intro content hlen
    unfold generateSummary
    rw [if_pos hlen]
  · intro content s0 rest hlen hsplit
    have hne : ¬ content.length ≤ 120 := by omega
    unfold generateSummary
    rw [if_neg hne, hsplit]
    constructor
    · intro h120
      show (if s0.length ≤ 120 then s0 ++ "."
            else pyStrip (summaryWords (pySplitWs content) "") ++ "...") = s0 ++ "."
      rw [if_pos h120]
    · intro h120
      show (if s0.length ≤ 120 then s0 ++ "."
            else pyStrip (summaryWords (pySplitWs content) "") ++ "...") =
          pyStrip (summaryWords (pySplitWs content) "") ++ "..."
      rw [if_neg (by omega)]

set_option maxRecDepth 100000 in
theorem C3_summary_generator_witness :
    generateSummary "short content" = "short content" ∧
    generateSummary demoContentC3 = "Lorem ipsum dolor sit amet" ++ "." ∧
    (generateSummary demoContentC3).length ≤ 123 ∧
    generateSummary "short content" ≠ "" :=
  ⟨C3_summary_generator.1 "short content" (by decide),
   (C3_summary_generator.2.1 demoContentC3 "Lorem ipsum dolor sit amet"
      ["Consectetur adipiscing elit sed do eiusmod tempor incididunt ut labore et dolore magna aliqua indeed"]
      (by decide) (by decide)).1 (by decide),
   C3_summary_generator.2.2.1 demoContentC3,
   C3_summary_generator.2.2.2 "short content" (by decide)⟩

/-- C6: at the failing input the combined lowercased text contains "smart"
and "hvac" as separate whitespace-separated words, yet "SmartHVAC" is not
among the extracted tags — the source's `replace("hvac", "hvac")` is a
no-op, so the vocabulary entry contributes the single word "smarthvac",
which the text does not contain contiguously.  The second half of the
claim (at most five tags, in vocabulary scan order) does hold. -/
theorem C6_tags_failing_input :
    (pySplitWs (pyLower ("smart hvac technology" ++ " " ++ "smart hvac")) =
        ["smart", "hvac", "technology", "smart", "hvac"] ∧
      "SmartHVAC" ∉ extractTags "smart hvac technology" "smart hvac") ∧
    (∀ title content : String, (extractTags title content).length ≤ 5) := by
  refine ⟨⟨by decide, by decide⟩, ?_⟩
  intro title content
  simp only [extractTags]
  rw [List.length_take]
  exact min_le_left _ _

/-- C7: formatting the same article dict twice is not a pure function of
the RawItem and the industry hint alone — with an empty published date the
formatter falls back to `datetime.utcnow()`, so two calls capturing
different times produce different Articles (they differ in
`publishedAt`). -/
theorem C7_formatting_counterexample :
    formatArticle ⟨2024, 1, 1, 0, 0, 0, 0, none⟩ ⟨"T", "D", "", "S", ""⟩ (some "HVAC") ≠
      formatArticle ⟨2025, 1, 1, 0, 0, 0, 0, none⟩ ⟨"T", "D", "", "S", ""⟩ (some "HVAC") := by
  decide

/-- C7 amended: the formatter is a pure function of the RawItem, the
industry hint and the captured current time; whenever the published-date
string is present and parseable the captured time is irrelevant, so
formatting the same RawItem twice yields identical Article output in that
case (and trivially whenever both calls capture the same time). -/
theorem C7_formatting_time_independent
    (classify : String → String → String) (n1 n2 : PyDateTime)
    (sa : SourceArticle) (hint : Option String) (d : PyDateTime)
    (hne : sa.publishedDate ≠ "") (hp : parsedateToDatetime sa.publishedDate = some d) :
    formatArticleWith classify n1 sa hint = formatArticleWith classify n2 sa hint := by
  have hpar : ∀ n : PyDateTime, parsePublished n sa.publishedDate = d := by
    intro n
    unfold parsePublished
    rw [if_neg hne, hp]
  simp only [formatArticleWith, hpar]

theorem C7_formatting_time_independent_witness :
    formatArticleWith determineIndustry ⟨2024, 1, 1, 0, 0, 0, 0, none⟩
        ⟨"T", "D", "", "S", "Mon, 02 Jan 2006 15:04:05 GMT"⟩ (some "HVAC") =
      formatArticleWith determineIndustry ⟨2025, 1, 1, 0, 0, 0, 0, none⟩
        ⟨"T", "D", "", "S", "Mon, 02 Jan 2006 15:04:05 GMT"⟩ (some "HVAC") :=
  C7_formatting_time_independent determineIndustry ⟨2024, 1, 1, 0, 0, 0, 0, none⟩
    ⟨2025, 1, 1, 0, 0, 0, 0, none⟩ ⟨"T", "D", "", "S", "Mon, 02 Jan 2006 15:04:05 GMT"⟩
    (some "HVAC") ⟨2006, 1, 2, 15, 4, 5, 0, some 0⟩ (by decide) (by decide)

theorem digitChar_isDigit (n : Nat) : (digitChar n).isDigit = true := by
  unfold digitChar
  have h : n % 10 < 10 := Nat.mod_lt _ (by norm_num)
  generalize n % 10 = m at h
  interval_cases m <;> decide

theorem munchChar_cons (c : Char) (l : List Char) : munchChar c (c :: l) = some l := by
  simp [munchChar]

theorem munchDigits_cons (n a : Nat) (l : List Char) :
    munchDigits (n + 1) (digitChar a :: l) = munchDigits n l := by
  simp [munchDigits, digitChar_isDigit]

theorem munchDigits_zero (l : List Char) : munchDigits 0 l = some l := rfl

theorem isoTail_ok (us : Nat) (tz : Option Int) :
    isoFracTzOk ((if us = 0 then [] else '.' :: sixDig us) ++
      (match tz with | none => [] | some off => tzChars off)) = true := by
  have htz : ∀ rest : List Char,
      (rest = (match tz with | none => [] | some off => tzChars off)) → isoTzOk rest = true := by
    intro rest hrest
    rcases tz with _ | off
    · subst hrest; rfl
    · subst hrest
      unfold tzChars isoTzOk
      by_cases hneg : off < 0 <;>
        simp only [hneg, if_true, if_false, ite_true, ite_false] <;>
        · rw [Bool.and_eq_true]
          refine ⟨by simp, ?_⟩
          simp only [twoDig, List.cons_append, List.nil_append, munchDigits_cons,
            munchDigits_zero, Option.some_bind, munchChar_cons]
          by_cases h60 : off.natAbs % 60 = 0 <;>
            simp only [h60, if_true, if_false, ite_true, ite_false]
          · rfl
          · unfold isoSecondsTailOk
            simp only [twoDig, munchChar_cons, Option.some_bind, munchDigits_cons,
              munchDigits_zero, decide_eq_true_eq]
  rcases tz with _ | off
  · by_cases hus : us = 0 <;> simp only [hus, if_true, if_false, ite_true, ite_false,
      List.nil_append, List.append_nil]
    · rfl
    · unfold isoFracTzOk
      simp only [sixDig, List.cons_append, List.nil_append, munchDigits_cons, munchDigits_zero]
      exact htz [] rfl
  · by_cases hus : us = 0 <;> simp only [hus, if_true, if_false, ite_true, ite_false,
      List.nil_append]
    · have hrw : isoFracTzOk (tzChars off) = isoTzOk (tzChars off) := by
        unfold tzChars
        by_cases hneg : off < 0 <;> simp only [hneg, if_true, if_false, ite_true, ite_false] <;>
          rfl
      rw [hrw]
      exact htz (tzChars off) rfl
    · unfold isoFracTzOk
      simp only [sixDig, List.cons_append, List.nil_append, munchDigits_cons, munchDigits_zero]
      exact htz (tzChars off) rfl

theorem isoformat_valid (d : PyDateTime) : isIso8601 (isoformat d) = true := by
  obtain ⟨y, mo, dd, hh, mi, ss, us, tz⟩ := d
  simp only [isIso8601, isoformat, fourDig, twoDig, List.cons_append, List.nil_append,
    List.append_assoc, munchDigits_cons, munchDigits_zero, Option.some_bind, munchChar_cons]
  exact isoTail_ok us tz

theorem formatArticleWith_eq_some (classify : String → String → String) (now : PyDateTime)
    (sa : SourceArticle) (hint : Option String) (a : Article)
    (h : formatArticleWith classify now sa hint = some a) :
    a.title = pyStrip sa.title ∧ a.content = pyStrip sa.description ∧
    a.title ≠ "" ∧ a.content ≠ "" ∧
    a.publishedAt = isoformat (parsePublished now sa.publishedDate) ∧
    (∀ hh : String, hint = some hh → hh ≠ "" → a.industry = hh) := by
  simp only [formatArticleWith] at h
  split at h
  · exact absurd h (by simp)
  · rename_i hcond
    push_neg at hcond
    injection h with h2
    subst h2
    refine ⟨rfl, rfl, hcond.1, hcond.2, rfl, ?_⟩
    intro hh hheq hne
    subst hheq
    show (if hh = "" then classify (pyStrip sa.title) (pyStrip sa.description) else hh) = hh
    rw [if_neg hne]

/-- C4: the date-parsing step does not parse ISO-8601 strings into the
corresponding timestamp: on the well-formed ISO-8601 input
"2024-01-02T03:04:05+00:00" the RFC-2822 parser fails, and the step
substitutes the captured current time (here 1999-01-01T00:00:00) instead
of the timestamp the string denotes. -/
theorem C4_iso_not_parsed_counterexample :
    parsedateToDatetime "2024-01-02T03:04:05+00:00" = none ∧
    parsePublished ⟨1999, 1, 1, 0, 0, 0, 0, none⟩ "2024-01-02T03:04:05+00:00" =
      ⟨1999, 1, 1, 0, 0, 0, 0, none⟩ ∧
    (⟨1999, 1, 1, 0, 0, 0, 0, none⟩ : PyDateTime) ≠ ⟨2024, 1, 2, 3, 4, 5, 0, some 0⟩ := by
  decide

/-- C4 amended: the date-parsing step is a total function: RFC-2822 date
strings are parsed into the corresponding timestamp (the claim's sample
format included), while ISO-8601 strings — like empty or otherwise
unparseable input — fall back to the current time captured at call time;
the step never raises, and the emitted Article's `publishedAt` field is
always a valid parseable ISO-8601 timestamp string. -/
theorem C4_date_parsing_amended :
    parsedateToDatetime "Mon, 02 Jan 2006 15:04:05 GMT" =
      some ⟨2006, 1, 2, 15, 4, 5, 0, some 0⟩ ∧
    (∀ now : PyDateTime, parsePublished now "" = now ∧
      parsePublished now "2024-01-02T03:04:05+00:00" = now) ∧
    (∀ (now : PyDateTime) (s : String), isIso8601 (isoformat (parsePublished now s)) = true) ∧
    (∀ (classify : String → String → String) (now : PyDateTime) (sa : SourceArticle)
        (hint : Option String) (a : Article),
      formatArticleWith classify now sa hint = some a → isIso8601 a.publishedAt = true) := by
  refine ⟨by decide, ?_, ?_, ?_⟩
  · intro now
    refine ⟨rfl, ?_⟩
    unfold parsePublished
    rw [if_neg (by decide), (by decide : parsedateToDatetime "2024-01-02T03:04:05+00:00" = none)]
  · intro now s
    exact isoformat_valid _
  · intro classify now sa hint a h
    obtain ⟨-, -, -, -, hpub, -⟩ := formatArticleWith_eq_some classify now sa hint a h
    rw [hpub]
    exact isoformat_valid _

theorem C4_date_parsing_amended_witness :
    isIso8601 (Article.publishedAt ⟨"T", "D", "D", "S", "Industry Analysis", "HVAC", "",
      "2024-01-01T00:00:00", []⟩) = true :=
  C4_date_parsing_amended.2.2.2 determineIndustry now0 ⟨"T", "D", "", "S", ""⟩ (some "HVAC")
    ⟨"T", "D", "D", "S", "Industry Analysis", "HVAC", "", "2024-01-01T00:00:00", []⟩ (by decide)

theorem processItems_mem (unesc : String → String) (classify : String → String → String)
    (now : PyDateTime) (maxPI : Nat) (industry : String) :
    ∀ (items : List XmlItem) (collected : Nat) (seen : List String) (acc : List Article)
      (a : Article),
      a ∈ (processItems unesc classify now maxPI industry items collected seen acc).2.2 →
      a ∈ acc ∨ ∃ sa : SourceArticle, formatArticleWith classify now sa (some industry) = some a := by
  intro items
  induction items with
  | nil =>
    intro collected seen acc a h
    exact Or.inl h
  | cons item rest ih =>
    intro collected seen acc a h
    simp only [processItems] at h
    split at h
    · exact ih _ _ _ a h
    · split at h
      · rename_i art hart
        split at h
        · rcases List.mem_append.mp h with h2 | h2
          · exact Or.inl h2
          · simp only [List.mem_singleton] at h2
            subst h2
            exact Or.inr ⟨_, hart⟩
        · rcases ih _ _ _ a h with h2 | h2
          · rcases List.mem_append.mp h2 with h3 | h3
            · exact Or.inl h3
            · simp only [List.mem_singleton] at h3
              subst h3
              exact Or.inr ⟨_, hart⟩
          · exact Or.inr h2
      · split at h
        · exact Or.inl h
        · exact ih _ _ _ a h

theorem processTerms_mem (unesc : String → String) (classify : String → String → String)
    (source : String → Except Unit (List XmlItem)) (now : PyDateTime)
    (maxPI : Nat) (industry : String) :
    ∀ (ts : List String) (collected : Nat) (seen : List String) (acc : List Article)
      (a : Article),
      a ∈ (processTerms unesc classify source now maxPI industry ts collected seen acc).2 →
      a ∈ acc ∨ ∃ sa : SourceArticle, formatArticleWith classify now sa (some industry) = some a := by
  intro ts
  induction ts with
  | nil => intro collected seen acc a h; exact Or.inl h
  | cons t ts ih =>
    intro collected seen acc a h
    simp only [processTerms] at h
    split at h
    · exact Or.inl h
    · split at h
      · exact ih _ _ _ a h
      · rename_i items hitems
        rcases ih _ _ _ a h with h2 | h2
        · exact processItems_mem unesc classify now maxPI industry items _ _ _ a h2
        · exact Or.inr h2

theorem runGroups_mem (unesc : String → String) (classify : String → String → String)
    (source : String → Except Unit (List XmlItem)) (now : PyDateTime) (maxPI : Nat) :
    ∀ (gs : List (String × List String)) (seen : List String) (acc : List Article) (a : Article),
      a ∈ runGroups unesc classify source now maxPI gs seen acc →
      a ∈ acc ∨ ∃ g ∈ gs, ∃ sa : SourceArticle,
        formatArticleWith classify now sa (some g.1) = some a := by
  intro gs
  induction gs with
  | nil => intro seen acc a h; exact Or.inl h
  | cons g gs ih =>
    intro seen acc a h
    rcases g with ⟨industry, terms⟩
    simp only [runGroups] at h
    rcases ih _ _ a h with h2 | h2
    · rcases processTerms_mem unesc classify source now maxPI industry terms 0 seen acc a h2
        with h3 | h3
      · exact Or.inl h3
      · exact Or.inr ⟨(industry, terms), List.mem_cons_self _ _, h3⟩
    · obtain ⟨g', hg', hsa⟩ := h2
      exact Or.inr ⟨g', List.mem_cons_of_mem _ hg', hsa⟩

/-- C9: every Article emitted by the orchestrator has a non-empty trimmed
title and non-empty content (the formatter drops items missing either);
concretely, a run whose term yields an item without a title, an item
without a description, and a good item emits exactly the good item, so the
run continues past dropped items. -/
theorem C9_nonempty_title_content (unesc : String → String)
    (source : String → Except Unit (List XmlItem)) (now : PyDateTime)
    (history : List (Option String)) (maxPI : Nat) (a : Article)
    (ha : a ∈ fetchArticles unesc source now history maxPI) :
    (a.title ≠ "" ∧ a.content ≠ "") ∧
    (fetchArticles (fun s => s) srcScenarioC9 now0 [] 10).map (fun x => x.title) = ["G"] := by
  refine ⟨?_, by decide⟩
  have ha' : a ∈ runGroups unesc determineIndustry source now maxPI searchTerms
      (preseedTitles history) [] := ha
  rcases runGroups_mem unesc determineIndustry source now maxPI searchTerms
      (preseedTitles history) [] a ha' with h | h
  · exact absurd h (List.not_mem_nil a)
  · obtain ⟨g, hg, sa, hsa⟩ := h
    obtain ⟨-, -, htne, hcne, -, -⟩ := formatArticleWith_eq_some _ _ _ _ _ hsa
    exact ⟨htne, hcne⟩

theorem C9_nonempty_title_content_witness :
    ((⟨"G", "good body", "good body", "Src", "Industry Analysis", "HVAC", "",
        "2024-01-01T00:00:00", []⟩ : Article).title ≠ "" ∧
      (⟨"G", "good body", "good body", "Src", "Industry Analysis", "HVAC", "",
        "2024-01-01T00:00:00", []⟩ : Article).content ≠ "") ∧
    (fetchArticles (fun s => s) srcScenarioC9 now0 [] 10).map (fun x => x.title) = ["G"] :=
  C9_nonempty_title_content (fun s => s) srcScenarioC9 now0 [] 10
    ⟨"G", "good body", "good body", "Src", "Industry Analysis", "HVAC", "",
      "2024-01-01T00:00:00", []⟩ (by decide)

theorem formatArticleWith_classify_irrel (c1 c2 : String → String → String)
    (now : PyDateTime) (sa : SourceArticle) (industry : String) (hind : industry ≠ "") :
    formatArticleWith c1 now sa (some industry) = formatArticleWith c2 now sa (some industry) := by
  simp only [formatArticleWith]
  rw [if_neg hind, if_neg hind]

theorem processItems_classify_irrel (unesc : String → String)
    (c1 c2 : String → String → String) (now : PyDateTime) (maxPI : Nat)
    (industry : String) (hind : industry ≠ "") :
    ∀ (items : List XmlItem) (collected : Nat) (seen : List String) (acc : List Article),
      processItems unesc c1 now maxPI industry items collected seen acc =
        processItems unesc c2 now maxPI industry items collected seen acc := by
  intro items
  induction items with
  | nil => intro collected seen acc; rfl
  | cons item rest ih =>
    intro collected seen acc
    simp only [processItems]
    rw [formatArticleWith_classify_irrel c1 c2 now _ industry hind]
    split
    · exact ih _ _ _
    · split
      · split
        · rfl
        · exact ih _ _ _
      · split
        · rfl
        · exact ih _ _ _

theorem processTerms_classify_irrel (unesc : String → String)
    (c1 c2 : String → String → String) (source : String → Except Unit (List XmlItem))
    (now : PyDateTime) (maxPI : Nat) (industry : String) (hind : industry ≠ "") :
    ∀ (ts : List String) (collected : Nat) (seen : List String) (acc : List Article),
      processTerms unesc c1 source now maxPI industry ts collected seen acc =
        processTerms unesc c2 source now maxPI industry ts collected seen acc := by
  intro ts
  induction ts with
  | nil => intro collected seen acc; rfl
  | cons t ts ih =>
    intro collected seen acc
    simp only [processTerms]
    split
    · rfl
    · rcases hsrc : source t with e | items <;> simp only [hsrc]
      · exact ih _ _ _
      · rw [processItems_classify_irrel unesc c1 c2 now maxPI industry hind]
        exact ih _ _ _

theorem runGroups_classify_irrel (unesc : String → String)
    (c1 c2 : String → String → String) (source : String → Except Unit (List XmlItem))
    (now : PyDateTime) (maxPI : Nat) :
    ∀ (gs : List (String × List String)), (∀ g ∈ gs, g.1 ≠ "") →
      ∀ (seen : List String) (acc : List Article),
        runGroups unesc c1 source now maxPI gs seen acc =
          runGroups unesc c2 source now maxPI gs seen acc := by
  intro gs
  induction gs with
  | nil => intro hgs seen acc; rfl
  | cons g gs ih =>
    intro hgs seen acc
    rcases g with ⟨industry, terms⟩
    simp only [runGroups]
    rw [processTerms_classify_irrel unesc c1 c2 source now maxPI industry
      (hgs _ (List.mem_cons_self _ _))]
    exact ih (fun g hg => hgs g (List.mem_cons_of_mem _ hg)) _ _

/-- C10: in the fetch path every emitted Article's industry is the label of
the term group it was fetched under (its formatter call received that
group's label as the hint), and the keyword-scoring industry classifier is
never consulted: since every group key of `searchTerms` is non-empty, the
whole run is unchanged when the classifier is replaced by any other
function. -/
theorem C10_industry_from_group :
    (∀ (unesc : String → String) (c1 c2 : String → String → String)
        (source : String → Except Unit (List XmlItem)) (now : PyDateTime)
        (history : List (Option String)) (maxPI : Nat),
      fetchArticlesWith unesc c1 source now history maxPI =
        fetchArticlesWith unesc c2 source now history maxPI) ∧
    (∀ (unesc : String → String) (source : String → Except Unit (List XmlItem))
        (now : PyDateTime) (history : List (Option String)) (maxPI : Nat) (a : Article),
      a ∈ fetchArticles unesc source now history maxPI →
      ∃ g ∈ searchTerms, a.industry = g.1 ∧
        ∃ sa : SourceArticle, formatArticleWith determineIndustry now sa (some g.1) = some a) := by
  constructor
  · intro unesc c1 c2 source now history maxPI
    exact runGroups_classify_irrel unesc c1 c2 source now maxPI searchTerms (by decide) _ _
  · intro unesc source now history maxPI a ha
    have ha' : a ∈ runGroups unesc determineIndustry source now maxPI searchTerms
        (preseedTitles history) [] := ha
    rcases runGroups_mem unesc determineIndustry source now maxPI searchTerms
        (preseedTitles history) [] a ha' with h | h
    · exact absurd h (List.not_mem_nil a)
    · obtain ⟨g, hg, sa, hsa⟩ := h
      have hkeys : ∀ g ∈ searchTerms, g.1 ≠ "" := by decide
      obtain ⟨-, -, -, -, -, hind⟩ := formatArticleWith_eq_some _ _ _ _ _ hsa
      exact ⟨g, hg, hind g.1 rfl (hkeys g hg), sa, hsa⟩

theorem C10_industry_from_group_witness :
    ∃ g ∈ searchTerms,
      (⟨"B1", "first unique story", "first unique story", "Unknown Source",
        "Industry Analysis", "HVAC", "", "2024-01-01T00:00:00", []⟩ : Article).industry = g.1 ∧
      ∃ sa : SourceArticle, formatArticleWith determineIndustry now0 sa (some g.1) =
        some ⟨"B1", "first unique story", "first unique story", "Unknown Source",
          "Industry Analysis", "HVAC", "", "2024-01-01T00:00:00", []⟩ :=
  C10_industry_from_group.2 (fun s => s) srcScenarioC8 now0 [] 10
    ⟨"B1", "first unique story", "first unique story", "Unknown Source",
      "Industry Analysis", "HVAC", "", "2024-01-01T00:00:00", []⟩ (by decide)

theorem processItems_dedup (unesc : String → String) (classify : String → String → String)
    (now : PyDateTime) (maxPI : Nat) (industry : String) :
    ∀ (items : List XmlItem) (collected : Nat) (bad seen : List String) (acc : List Article),
      bad ⊆ seen →
      (∀ a ∈ acc, a.title ∈ seen ∧ a.title ∉ bad) →
      (acc.map (fun a => a.title)).Nodup →
      seen ⊆ (processItems unesc classify now maxPI industry items collected seen acc).2.1 ∧
      bad ⊆ (processItems unesc classify now maxPI industry items collected seen acc).2.1 ∧
      (∀ a ∈ (processItems unesc classify now maxPI industry items collected seen acc).2.2,
        a.title ∈ (processItems unesc classify now maxPI industry items collected seen acc).2.1 ∧
        a.title ∉ bad) ∧
      ((processItems unesc classify now maxPI industry items collected seen acc).2.2.map
        (fun a => a.title)).Nodup := by
  intro items
  induction items with
  | nil =>
    intro collected bad seen acc hbs hacc hnd
    exact ⟨fun x hx => hx, hbs, hacc, hnd⟩
  | cons item rest ih =>
    intro collected bad seen acc hbs hacc hnd
    simp only [processItems]
    split
    · exact ih collected bad seen acc hbs hacc hnd
    · rename_i hskip
      push_neg at hskip
      obtain ⟨htne, htseen⟩ := hskip
      have hbs1 : bad ⊆ pyStrip (pyOr item.title "") :: seen := fun x hx =>
        List.mem_cons_of_mem _ (hbs hx)
      have hseensub : seen ⊆ pyStrip (pyOr item.title "") :: seen := fun x hx =>
        List.mem_cons_of_mem _ hx
      split
      · rename_i art hart
        have hart_title : art.title = pyStrip (pyOr item.title "") := by
          have h1 := (formatArticleWith_eq_some _ _ _ _ _ hart).1
          rw [h1]
          exact pyStrip_idem _
        have hacc1 : ∀ a ∈ acc ++ [art],
            a.title ∈ pyStrip (pyOr item.title "") :: seen ∧ a.title ∉ bad := by
          intro a hm
          rcases List.mem_append.mp hm with hm | hm
          · exact ⟨List.mem_cons_of_mem _ (hacc a hm).1, (hacc a hm).2⟩
          · simp only [List.mem_singleton] at hm
            subst hm
            rw [hart_title]
            exact ⟨List.mem_cons_self _ _, fun hbad => htseen (hbs hbad)⟩
        have hnd1 : ((acc ++ [art]).map (fun a => a.title)).Nodup := by
          rw [List.map_append, List.nodup_append]
          refine ⟨hnd, by simp, ?_⟩
          intro x hx hmem
          simp only [List.map_cons, List.map_nil, List.mem_singleton] at hmem
          rw [List.mem_map] at hx
          obtain ⟨a0, ha0, rfl⟩ := hx
          rw [hart_title] at hmem
          exact htseen (hmem ▸ (hacc a0 ha0).1)
        split
        · exact ⟨hseensub, hbs1, hacc1, hnd1⟩
        · obtain ⟨hs, hb, ha2, hn2⟩ := ih _ bad _ _ hbs1 hacc1 hnd1
          exact ⟨fun x hx => hs (hseensub hx), hb, ha2, hn2⟩
      · have hacc1 : ∀ a ∈ acc,
            a.title ∈ pyStrip (pyOr item.title "") :: seen ∧ a.title ∉ bad :=
          fun a hm => ⟨List.mem_cons_of_mem _ (hacc a hm).1, (hacc a hm).2⟩
        split
        · exact ⟨hseensub, hbs1, hacc1, hnd⟩
        · obtain ⟨hs, hb, ha2, hn2⟩ := ih _ bad _ _ hbs1 hacc1 hnd
          exact ⟨fun x hx => hs (hseensub hx), hb, ha2, hn2⟩

theorem processTerms_dedup (unesc : String → String) (classify : String → String → String)
    (source : String → Except Unit (List XmlItem)) (now : PyDateTime)
    (maxPI : Nat) (industry : String) :
    ∀ (ts : List String) (collected : Nat) (bad seen : List String) (acc : List Article),
      bad ⊆ seen →
      (∀ a ∈ acc, a.title ∈ seen ∧ a.title ∉ bad) →
      (acc.map (fun a => a.title)).Nodup →
      seen ⊆ (processTerms unesc classify source now maxPI industry ts collected seen acc).1 ∧
      bad ⊆ (processTerms unesc classify source now maxPI industry ts collected seen acc).1 ∧
      (∀ a ∈ (processTerms unesc classify source now maxPI industry ts collected seen acc).2,
        a.title ∈ (processTerms unesc classify source now maxPI industry ts collected seen acc).1 ∧
        a.title ∉ bad) ∧
      ((processTerms unesc classify source now maxPI industry ts collected seen acc).2.map
        (fun a => a.title)).Nodup := by
  intro ts
  induction ts with
  | nil =>
    intro collected bad seen acc hbs hacc hnd
    exact ⟨fun x hx => hx, hbs, hacc, hnd⟩
  | cons t ts ih =>
    intro collected bad seen acc hbs hacc hnd
    simp only [processTerms]
    split
    · exact ⟨fun x hx => hx, hbs, hacc, hnd⟩
    · split
      · exact ih collected bad seen acc hbs hacc hnd
      · rename_i items hitems
        obtain ⟨hs1, hb1, ha1, hn1⟩ :=
          processItems_dedup unesc classify now maxPI industry items collected bad seen acc
            hbs hacc hnd
        obtain ⟨hs2, hb2, ha2, hn2⟩ := ih _ bad _ _ hb1 ha1 hn1
        exact ⟨fun x hx => hs2 (hs1 hx), hb2, ha2, hn2⟩

theorem runGroups_dedup (unesc : String → String) (classify : String → String → String)
    (source : String → Except Unit (List XmlItem)) (now : PyDateTime) (maxPI : Nat) :
    ∀ (gs : List (String × List String)) (bad seen : List String) (acc : List Article),
      bad ⊆ seen →
      (∀ a ∈ acc, a.title ∈ seen ∧ a.title ∉ bad) →
      (acc.map (fun a => a.title)).Nodup →
      ((runGroups unesc classify source now maxPI gs seen acc).map (fun a => a.title)).Nodup ∧
      ∀ a ∈ runGroups unesc classify source now maxPI gs seen acc, a.title ∉ bad := by
  intro gs
  induction gs with
  | nil =>
    intro bad seen acc hbs hacc hnd
    exact ⟨hnd, fun a ha => (hacc a ha).2⟩
  | cons g gs ih =>
    intro bad seen acc hbs hacc hnd
    rcases g with ⟨industry, terms⟩
    simp only [runGroups]
    obtain ⟨hs1, hb1, ha1, hn1⟩ :=
      processTerms_dedup unesc classify source now maxPI industry terms 0 bad seen acc
        hbs hacc hnd
    exact ih bad _ _ hb1 ha1 hn1

/-- C5 amended: across one orchestrator run no title is emitted twice — the
emitted title list has no duplicates — and a title pre-seeded from the
persisted history file is never emitted at all. -/
theorem C5_dedup_at_most_one (unesc : String → String)
    (source : String → Except Unit (List XmlItem)) (now : PyDateTime)
    (history : List (Option String)) (maxPI : Nat) (a : Article)
    (ha : a ∈ fetchArticles unesc source now history maxPI) :
    ((fetchArticles unesc source now history maxPI).map (fun x => x.title)).Nodup ∧
    a.title ∉ preseedTitles history := by
  obtain ⟨hnd, hbad⟩ :=
    runGroups_dedup unesc determineIndustry source now maxPI searchTerms
      (preseedTitles history) (preseedTitles history) []
      (fun x hx => hx) (by intro a0 h0; exact absurd h0 (List.not_mem_nil a0)) (by simp)
  exact ⟨hnd, hbad a ha⟩

theorem C5_dedup_at_most_one_witness :
    ((fetchArticles (fun s => s) srcScenarioC8 now0 [] 10).map (fun x => x.title)).Nodup ∧
    (⟨"B2", "second unique story", "second unique story", "Unknown Source",
      "Industry Analysis", "HVAC", "", "2024-01-01T00:00:00", []⟩ : Article).title ∉
      preseedTitles [] :=
  C5_dedup_at_most_one (fun s => s) srcScenarioC8 now0 [] 10
    ⟨"B2", "second unique story", "second unique story", "Unknown Source",
      "Industry Analysis", "HVAC", "", "2024-01-01T00:00:00", []⟩ (by decide)

/-- C5: the claim's "exactly one Article bearing that title is emitted"
fails: in this run the data source yields two well-formed RawItems with
the identical trimmed title "T", yet zero Articles bearing "T" are emitted,
because "T" is pre-seeded from the persisted history (the claim's own
second clause) — so "exactly one" must weaken to "at most one". -/
theorem C5_dedup_counterexample :
    (∃ items, srcScenarioC5 "HVAC industry news" = Except.ok items ∧
      items.map (fun i => pyStrip (pyOr i.title "")) = ["T", "T"]) ∧
    ((fetchArticles (fun s => s) srcScenarioC5 now0 [some "T"] 10).filter
      (fun a => a.title == "T")).length = 0 := by
  exact ⟨⟨_, rfl, by decide⟩, by decide⟩

theorem processTerms_src_congr (unesc : String → String) (classify : String → String → String)
    (src1 src2 : String → Except Unit (List XmlItem)) (now : PyDateTime)
    (maxPI : Nat) (industry : String) (t : String)
    (h1 : src1 t = Except.error ()) (h2 : src2 t = Except.ok [])
    (hagree : ∀ u, u ≠ t → src1 u = src2 u) :
    ∀ (ts : List String) (collected : Nat) (seen : List String) (acc : List Article),
      processTerms unesc classify src1 now maxPI industry ts collected seen acc =
        processTerms unesc classify src2 now maxPI industry ts collected seen acc := by
  intro ts
  induction ts with
  | nil => intro collected seen acc; rfl
  | cons u ts ih =>
    intro collected seen acc
    simp only [processTerms]
    by_cases hu : u = t
    · subst hu
      rw [h1, h2]
      split
      · rfl
      · exact ih collected seen acc
    · rw [hagree u hu]
      split
      · rfl
      · rcases hsrc : src2 u with e | items <;> simp only [hsrc]
        · exact ih _ _ _
        · exact ih _ _ _

theorem runGroups_src_congr (unesc : String → String) (classify : String → String → String)
    (src1 src2 : String → Except Unit (List XmlItem)) (now : PyDateTime)
    (maxPI : Nat) (t : String)
    (h1 : src1 t = Except.error ()) (h2 : src2 t = Except.ok [])
    (hagree : ∀ u, u ≠ t → src1 u = src2 u) :
    ∀ (gs : List (String × List String)) (seen : List String) (acc : List Article),
      runGroups unesc classify src1 now maxPI gs seen acc =
        runGroups unesc classify src2 now maxPI gs seen acc := by
  intro gs
  induction gs with
  | nil => intro seen acc; rfl
  | cons g gs ih =>
    intro seen acc
    rcases g with ⟨industry, terms⟩
    simp only [runGroups]
    rw [processTerms_src_congr unesc classify src1 src2 now maxPI industry t h1 h2 hagree]
    exact ih _ _

/-- C8: a per-term fetch failure never escapes the orchestrator loop — a
run in which a term's fetch raises is identical to the run in which that
term succeeds with an empty item list (the term is skipped and the
remaining terms proceed); concretely, with term A failing, term B yielding
two unique items and term C yielding a duplicate of B plus one new item,
exactly 3 Articles come out, in B-then-C order, without crashing. -/
theorem C8_error_term_skipped :
    (∀ (unesc : String → String) (classify : String → String → String)
        (src1 src2 : String → Except Unit (List XmlItem)) (now : PyDateTime)
        (history : List (Option String)) (maxPI : Nat) (t : String),
      src1 t = Except.error () → src2 t = Except.ok [] → (∀ u, u ≠ t → src1 u = src2 u) →
      fetchArticlesWith unesc classify src1 now history maxPI =
        fetchArticlesWith unesc classify src2 now history maxPI) ∧
    ((fetchArticles (fun s => s) srcScenarioC8 now0 [] 10).map (fun a => a.title) =
        ["B1", "B2", "C1"] ∧
      (fetchArticles (fun s => s) srcScenarioC8 now0 [] 10).length = 3) := by
  refine ⟨?_, by decide, by decide⟩
  intro unesc classify src1 src2 now history maxPI t h1 h2 hagree
  exact runGroups_src_congr unesc classify src1 src2 now maxPI t h1 h2 hagree
    searchTerms (preseedTitles history) []

theorem C8_error_term_skipped_witness :
    fetchArticlesWith (fun s => s) determineIndustry srcScenarioC8 now0 [] 10 =
      fetchArticlesWith (fun s => s) determineIndustry srcScenarioC8ok now0 [] 10 :=
  C8_error_term_skipped.1 (fun s => s) determineIndustry srcScenarioC8 srcScenarioC8ok
    now0 [] 10 "HVAC industry news" rfl rfl
    (fun u hu => by simp only [srcScenarioC8ok, if_neg hu])
